import Mathlib

/-!
Verification of the analysis orchestration and derivation core of the
dupont-analyst dashboard.

The development is a shallow embedding of the core functions of the
repository:

* `computeTimeSeries` — the derived-metrics pass inside
  `generateDuPontAnalysis` (src/services/geminiService.ts, lines 196-210);
* `fetchWithRetry` — the retry/backoff wrapper
  (src/services/geminiService.ts, lines 8-30);
* `calculateDiscrepancy` — the discrepancy detector
  (src/App.tsx, lines 119-132);
* `runAnalysis` — the tiered cache resolver (src/App.tsx, lines 134-198);
* `downloadReport` — the export collector (src/App.tsx, lines 244-305).

JavaScript numbers are modelled as exact rationals (`ℚ`); JavaScript
exceptions as `Except` values; the two cache tiers as functions from
string keys to optional analysis values; the asynchronous generation call
as an explicit oracle parameter.   React state updates (`setAnalysis`,
`setLoading`, `setStatusMessage`) are presentation only and are not part
of the model.
-/

/-! ### String helpers

`strHasSub s pat` models JavaScript `s.includes(pat)`.  It is written as
plain structural recursion over the character lists so that it is
executable and decidable. -/

/-- Boolean test that the first character list is an initial segment of
the second (helper for the substring test below). -/
def charsStart : List Char → List Char → Bool
  | [], _ => true
  | _ :: _, [] => false
  | a :: as, b :: bs => a == b && charsStart as bs

/-- Boolean test that the first character list occurs contiguously inside
the second. -/
def charsSub (p : List Char) : List Char → Bool
  | [] => charsStart p []
  | b :: bs => charsStart p (b :: bs) || charsSub p bs

/-- Models JavaScript `s.includes(pat)`: `pat` occurs as a contiguous
substring of `s`. -/
def strHasSub (s pat : String) : Bool :=
  charsSub pat.data s.data

/-! ### Data model (src/types.ts) -/

/-- Raw yearly financial record, the input of the derivation pass: the
raw fields of `MetricYearData` in src/types.ts, as returned by the Fact
Provider's `timeSeries`. -/
structure RawYearData where
  year : Int
  revenue : ℚ
  netProfit : ℚ
  totalAssets : ℚ
  totalEquity : ℚ
deriving DecidableEq, Repr

instance : Inhabited RawYearData := ⟨⟨0, 0, 0, 0, 0⟩⟩

/-- `MetricYearData` of src/types.ts: a raw yearly record together with
the computed ratio fields. -/
structure MetricYearData extends RawYearData where
  roe : ℚ
  roa : ℚ
  margin : ℚ
  turnover : ℚ
  leverage : ℚ
deriving DecidableEq, Repr

instance : Inhabited MetricYearData := ⟨⟨default, 0, 0, 0, 0, 0⟩⟩

/-- The slice of `DuPontAnalysis` (src/types.ts) that the orchestration
core reads: the ordered-by-recency derived time series.  The remaining
fields (narrative, risk, forecasts, ...) are opaque payload carried along
unchanged by the resolver and are not needed for any claim. -/
structure DuPontAnalysis where
  timeSeries : List MetricYearData
deriving DecidableEq, Repr

/-- Static company reference record ({symbol, name, sector, domain}). -/
structure Company where
  symbol : String
  name : String
  sector : String
  domain : String
deriving DecidableEq, Repr

/-! ### Metric derivation (src/services/geminiService.ts, lines 196-210)

The source computes, inside `generateDuPontAnalysis`:

  `rawData.timeSeries.map((d, i, arr) => {`
  `  const prev = i < arr.length - 1 ? arr[i+1] : null;`
  `  const avgAssets = prev ? (d.totalAssets + prev.totalAssets) / 2 : d.totalAssets;`
  `  const avgEquity = prev ? (d.totalEquity + prev.totalEquity) / 2 : d.totalEquity;`
  `  return { ...d, margin, turnover, roa, leverage, roe };`
  `})`

`deriveYear` is the body of the callback (`prev` is the element at
`i+1` when it exists); `computeTimeSeries` is the `map`, expressed as a
recursion in which the successor element of the list plays the role of
`arr[i+1]`. -/

/-- One step of the derivation pass: attach the computed ratios to the
record `d`, averaging the balance-sheet fields with the prior-year record
`prev` when one exists. -/
def deriveYear (d : RawYearData) (prev : Option RawYearData) : MetricYearData :=
  let avgAssets : ℚ := match prev with
    | some p => (d.totalAssets + p.totalAssets) / 2
    | none => d.totalAssets
  let avgEquity : ℚ := match prev with
    | some p => (d.totalEquity + p.totalEquity) / 2
    | none => d.totalEquity
  { toRawYearData := d
    roe := d.netProfit / avgEquity
    roa := d.netProfit / avgAssets
    margin := d.netProfit / d.revenue
    turnover := d.revenue / avgAssets
    leverage := avgAssets / avgEquity }

/-- The derivation pass over the whole most-recent-first series
(`computedTimeSeries` in the source). -/
def computeTimeSeries : List RawYearData → List MetricYearData
  | [] => []
  | d :: rest => deriveYear d rest.head? :: computeTimeSeries rest

theorem computeTimeSeries_length (arr : List RawYearData) :
    (computeTimeSeries arr).length = arr.length := by
  induction arr with
  | nil => rfl
  | cons d rest ih => simp [computeTimeSeries, ih]

theorem computeTimeSeries_get (arr : List RawYearData) (i : Nat)
    (h : i < arr.length) (h2 : i < (computeTimeSeries arr).length) :
    (computeTimeSeries arr).get ⟨i, h2⟩ = deriveYear (arr.get ⟨i, h⟩) arr[i + 1]? := by
  induction arr generalizing i with
  | nil => simp at h
  | cons d rest ih =>
    cases i with
    | zero =>
      simp only [computeTimeSeries, List.get]
      cases rest <;> simp [List.getElem?_cons_succ]
    | succ i =>
      simp only [computeTimeSeries, List.get, List.getElem?_cons_succ]
      exact ih i (by simpa using h) (by simpa [computeTimeSeries_length] using h2)

/-! ### Resilient Invoker (src/services/geminiService.ts, lines 8-30)

JavaScript source:

  `async function fetchWithRetry<T>(fn, maxRetries = 3, initialDelay = 3000) {`
  `  let attempt = 0;`
  `  while (attempt <= maxRetries) {`
  `    try { return await fn(); }`
  `    catch (error) {`
  `      const isRateLimit = error?.status === 429 ||`
  `        error?.message?.includes("429") ||`
  `        error?.message?.includes("RESOURCE_EXHAUSTED") ||`
  `        error?.message?.includes("Quota");`
  `      if (isRateLimit && attempt < maxRetries) {`
  `        const delay = initialDelay * Math.pow(2, attempt);`
  `        await new Promise(resolve => setTimeout(resolve, delay));`
  `        attempt++; continue;`
  `      }`
  `      throw error;`
  `    }`
  `  }`
  `  throw new Error("Max retries exceeded");`
  `}`

The wrapped operation is modelled as a function from the invocation
index to an `Except` outcome (`attempt` equals the number of calls made
so far, so the `attempt` counter doubles as the invocation index).  The
loop is written structurally on a fuel argument that starts at
`maxRetries + 1`; since `attempt` only increases by one per iteration,
fuel `maxRetries + 1 - attempt` is positive exactly while the `while`
guard `attempt <= maxRetries` holds, and both fuel exhaustion and guard
failure map to the trailing `throw new Error("Max retries exceeded")`
(recorded by the `exhausted` flag). -/

/-- A thrown JavaScript error value, as inspected by the retry wrapper:
an optional numeric `status` and a `message` string. -/
structure JsError where
  status : Option Nat
  message : String
deriving DecidableEq, Repr

/-- The rate-limit classifier of `fetchWithRetry`. -/
def isRateLimit (e : JsError) : Bool :=
  e.status == some 429 ||
    strHasSub e.message "429" ||
    strHasSub e.message "RESOURCE_EXHAUSTED" ||
    strHasSub e.message "Quota"

/-- An `Except` outcome that is a thrown rate-limit error. -/
def isRateLimitFailure {α : Type} : Except JsError α → Bool
  | .error e => isRateLimit e
  | .ok _ => false

/-- The error object created by the trailing
`throw new Error("Max retries exceeded")`. -/
def maxRetriesExceeded : JsError :=
  ⟨none, "Max retries exceeded"⟩

deriving instance DecidableEq for Except

/-- Observable outcome of one `fetchWithRetry` run: the returned value or
thrown error, the number of invocations of the wrapped operation, the
sequence of backoff waits performed (in time-units), and whether the
trailing max-retries throw after the loop fired. -/
structure FetchResult (α : Type) where
  result : Except JsError α
  calls : Nat
  delays : List ℚ
  exhausted : Bool
deriving DecidableEq, Repr

/-- The retry loop.  `fuel` bounds the remaining iterations (it starts at
`maxRetries + 1`, an upper bound on the number of times the `while` body
can run); `attempt` and `waited` are the loop state. -/
def fetchLoop {α : Type} (fn : Nat → Except JsError α) (maxRetries : Nat)
    (initialDelay : ℚ) : Nat → Nat → List ℚ → FetchResult α
  | 0, attempt, waited => ⟨.error maxRetriesExceeded, attempt, waited, true⟩
  | fuel + 1, attempt, waited =>
    if attempt ≤ maxRetries then
      match fn attempt with
      | .ok v => ⟨.ok v, attempt + 1, waited, false⟩
      | .error e =>
        if isRateLimit e = true ∧ attempt < maxRetries then
          fetchLoop fn maxRetries initialDelay fuel (attempt + 1)
            (waited ++ [initialDelay * 2 ^ attempt])
        else
          ⟨.error e, attempt + 1, waited, false⟩
    else
      ⟨.error maxRetriesExceeded, attempt, waited, true⟩

/-- `fetchWithRetry` with the source's default arguments. -/
def fetchWithRetry {α : Type} (fn : Nat → Except JsError α)
    (maxRetries : Nat := 3) (initialDelay : ℚ := 3000) : FetchResult α :=
  fetchLoop fn maxRetries initialDelay (maxRetries + 1) 0 []

theorem fetchLoop_succ {α : Type} (fn : Nat → Except JsError α)
    (mr : Nat) (d : ℚ) (fuel attempt : Nat) (waited : List ℚ) :
    fetchLoop fn mr d (fuel + 1) attempt waited =
      if attempt ≤ mr then
        match fn attempt with
        | .ok v => ⟨.ok v, attempt + 1, waited, false⟩
        | .error e =>
          if isRateLimit e = true ∧ attempt < mr then
            fetchLoop fn mr d fuel (attempt + 1) (waited ++ [d * 2 ^ attempt])
          else
            ⟨.error e, attempt + 1, waited, false⟩
      else
        ⟨.error maxRetriesExceeded, attempt, waited, true⟩ := rfl

/-- Advancing the loop across a block of consecutive rate-limit failures:
if every invocation with index in `[a, a + n)` throws a rate-limit error
and `a + n ≤ maxRetries`, the loop entered at attempt `a` reaches attempt
`a + n` having waited `initialDelay * 2 ^ j` for each `j` in `[a, a+n)`. -/
theorem fetchLoop_advance {α : Type} (fn : Nat → Except JsError α)
    (mr : Nat) (d : ℚ) :
    ∀ (n a : Nat) (w : List ℚ), a + n ≤ mr →
      (∀ j, a ≤ j → j < a + n → isRateLimitFailure (fn j) = true) →
      fetchLoop fn mr d (mr + 1 - a) a w =
        fetchLoop fn mr d (mr + 1 - (a + n)) (a + n)
          (w ++ (List.range' a n).map fun j => d * 2 ^ j) := by
  intro n
  induction n with
  | zero => intro a w _ _; simp
  | succ n ih =>
    intro a w hle hfail
    have ha : a < mr := by omega
    have hfa : isRateLimitFailure (fn a) = true := hfail a le_rfl (by omega)
    obtain ⟨e, hfn, hrl⟩ : ∃ e, fn a = .error e ∧ isRateLimit e = true := by
      cases hfn : fn a with
      | ok v => rw [hfn] at hfa; simp [isRateLimitFailure] at hfa
      | error e => rw [hfn] at hfa; exact ⟨e, rfl, hfa⟩
    have hfuel : mr + 1 - a = (mr - a) + 1 := by omega
    rw [hfuel, fetchLoop_succ, if_pos (show a ≤ mr by omega)]
    simp only [hfn]
    rw [if_pos ⟨hrl, ha⟩]
    have hfuel2 : mr - a = mr + 1 - (a + 1) := by omega
    rw [hfuel2]
    rw [ih (a + 1) (w ++ [d * 2 ^ a]) (by omega)
      (fun j hj1 hj2 => hfail j (by omega) (by omega))]
    have e1 : a + (n + 1) = a + 1 + n := by omega
    rw [e1, List.range'_succ, List.map_cons]
    simp

/-- Every run of the retry loop ends inside the loop at some invocation
`n ≤ maxRetries`: the outcome is exactly `fn n`'s outcome, `n + 1` calls
were made, and the trailing max-retries throw never fires. -/
theorem fetchLoop_provenance {α : Type} (fn : Nat → Except JsError α)
    (mr : Nat) (d : ℚ) :
    ∀ (fuel a : Nat) (w : List ℚ), mr + 1 = a + fuel → a ≤ mr →
      ∃ n, a ≤ n ∧ n ≤ mr ∧
        (fetchLoop fn mr d fuel a w).result = fn n ∧
        (fetchLoop fn mr d fuel a w).calls = n + 1 ∧
        (fetchLoop fn mr d fuel a w).exhausted = false := by
  intro fuel
  induction fuel with
  | zero => intro a w hfa ha; omega
  | succ fuel ih =>
    intro a w hfa ha
    cases hfn : fn a with
    | ok v =>
      refine ⟨a, le_rfl, ha, ?_, ?_, ?_⟩ <;>
        simp [fetchLoop_succ, if_pos ha, hfn]
    | error e =>
      by_cases hretry : isRateLimit e = true ∧ a < mr
      · have hred : fetchLoop fn mr d (fuel + 1) a w =
            fetchLoop fn mr d fuel (a + 1) (w ++ [d * 2 ^ a]) := by
          rw [fetchLoop_succ, if_pos ha]
          simp only [hfn]
          rw [if_pos hretry]
        obtain ⟨n, h1, h2, h3, h4, h5⟩ :=
          ih (a + 1) (w ++ [d * 2 ^ a]) (by omega) (by omega)
        rw [hred]
        exact ⟨n, by omega, h2, h3, h4, h5⟩
      · have hred : fetchLoop fn mr d (fuel + 1) a w =
            ⟨.error e, a + 1, w, false⟩ := by
          rw [fetchLoop_succ, if_pos ha]
          simp only [hfn]
          rw [if_neg hretry]
        rw [hred]
        exact ⟨a, le_rfl, ha, by rw [hfn], rfl, rfl⟩

/-- Sum of the geometric backoff schedule. -/
theorem backoff_sum (d : ℚ) (k : Nat) :
    (((List.range k).map fun j => d * 2 ^ j).sum) = d * (2 ^ k - 1) := by
  induction k with
  | zero => simp
  | succ k ih =>
    rw [List.range_succ, List.map_append, List.sum_append, ih]
    simp only [List.map_cons, List.map_nil, List.sum_cons, List.sum_nil]
    ring

/-! ### Discrepancy Detector (src/App.tsx, lines 119-132)

JavaScript source:

  `const calculateDiscrepancy = (oldData, newData) => {`
  `  const oldRoe = oldData.timeSeries[0].roe;`
  `  const newRoe = newData.timeSeries[0].roe;`
  `  const oldProfit = oldData.timeSeries[0].netProfit;`
  `  const newProfit = newData.timeSeries[0].netProfit;`
  `  const roeDiff = Math.abs(newRoe - oldRoe) / (oldRoe || 1);`
  `  const profitDiff = Math.abs(newProfit - oldProfit) / (oldProfit || 1);`
  `  return {`
  `    significant: roeDiff > 0.01 || profitDiff > 0.01,`
  `    message: ...formatted percentage shifts...`
  `  };`
  `};`

`timeSeries[0]` is modelled by `List.headI` (the head of the series; the
schema guarantees a non-empty series).  The JavaScript falsy test
`oldRoe || 1` replaces a zero divisor by `1` and is modelled by an
explicit zero test on the exact rational.  The `message` string is a
fixed decimal formatting of the two relative deltas; the report carries
the deltas themselves, from which the message is formatted. -/

/-- The discrepancy verdict: the significance flag together with the two
relative deltas that the `message` string formats. -/
structure DiscrepancyReport where
  significant : Bool
  roeDiff : ℚ
  profitDiff : ℚ
deriving DecidableEq, Repr

/-- The Discrepancy Detector. -/
def calculateDiscrepancy (oldData newData : DuPontAnalysis) : DiscrepancyReport :=
  let oldRoe := oldData.timeSeries.headI.roe
  let newRoe := newData.timeSeries.headI.roe
  let oldProfit := oldData.timeSeries.headI.netProfit
  let newProfit := newData.timeSeries.headI.netProfit
  let roeDiff := |newRoe - oldRoe| / (if oldRoe = 0 then 1 else oldRoe)
  let profitDiff := |newProfit - oldProfit| / (if oldProfit = 0 then 1 else oldProfit)
  { significant := decide (roeDiff > 0.01 ∨ profitDiff > 0.01)
    roeDiff := roeDiff
    profitDiff := profitDiff }

/-! ### Tiered Cache Resolver (src/App.tsx, lines 87-103 and 134-198)

The persisted tier (`localStorage` under keys
`"dupont_cache_" + symbol + "_" + year`) and the in-memory precomputed
tier (`precomputedCache` under keys `symbol + "_" + year`) are modelled
as functions from string keys to optional analyses.  `getCachedAnalysis`
and `setCachedAnalysis` are the storage accessors of the source (a
corrupted persisted entry, whose `JSON.parse` fails, reads back as
`none`).  The generation call `generateDuPontAnalysis` is modelled as an
oracle `gen : Bool → Option DiscrepancyReport → Except JsError
DuPontAnalysis` taking the `isDeepDive` flag and the optional
discrepancy note; `runAnalysis` reports its outcome, the persisted store
after the call, and the list of generation calls it issued (in order,
with their arguments). -/

/-- The `CACHE_PREFIX` constant of src/App.tsx. -/
def cacheNamespace : String := "dupont_cache_"

/-- In-memory precomputed-tier key: `symbol + "_" + year`. -/
def cacheKey (symbol : String) (year : Int) : String :=
  symbol ++ "_" ++ toString year

/-- Persisted-tier key: `CACHE_PREFIX + symbol + "_" + year`. -/
def storageKey (symbol : String) (year : Int) : String :=
  cacheNamespace ++ symbol ++ "_" ++ toString year

/-- `getCachedAnalysis` of src/App.tsx over an explicit store. -/
def getCachedAnalysis (storage : String → Option DuPontAnalysis)
    (symbol : String) (year : Int) : Option DuPontAnalysis :=
  storage (storageKey symbol year)

/-- `setCachedAnalysis` of src/App.tsx over an explicit store. -/
def setCachedAnalysis (storage : String → Option DuPontAnalysis)
    (symbol : String) (year : Int) (data : DuPontAnalysis) :
    String → Option DuPontAnalysis :=
  fun k => if k = storageKey symbol year then some data else storage k

/-- The two cache tiers visible to one `runAnalysis` call. -/
structure CacheState where
  precomputed : String → Option DuPontAnalysis
  storage : String → Option DuPontAnalysis

/-- Observable outcome of one `runAnalysis` call: the returned value or
propagated error, the persisted store afterwards, and the generation
calls issued (each recorded as its `isDeepDive` flag and discrepancy
note). -/
structure RunResult where
  outcome : Except JsError DuPontAnalysis
  storage : String → Option DuPontAnalysis
  genCalls : List (Bool × Option DiscrepancyReport)

/-- The Tiered Cache Resolver, `runAnalysis` of src/App.tsx:

1. if not forced, an entry in the precomputed tier is returned as is;
2. if not forced, an entry in the persisted tier is returned as is;
3. otherwise a standard generation call is made; if this call was a
   forced refresh and a prior persisted entry existed, the Discrepancy
   Detector compares the two and, when significant, a deep-dive call with
   the discrepancy note is made and its result supersedes the first;
4. the final result is written to the persisted tier and returned;
   a generation failure propagates and writes nothing. -/
def runAnalysis (st : CacheState)
    (gen : Bool → Option DiscrepancyReport → Except JsError DuPontAnalysis)
    (forceRefresh : Bool) (symbol : String) (year : Int) : RunResult :=
  match forceRefresh, st.precomputed (cacheKey symbol year) with
  | false, some data => ⟨.ok data, st.storage, []⟩
  | _, _ =>
    let cached := getCachedAnalysis st.storage symbol year
    match forceRefresh, cached with
    | false, some c => ⟨.ok c, st.storage, []⟩
    | _, _ =>
      match gen false none with
      | .error e => ⟨.error e, st.storage, [(false, none)]⟩
      | .ok result =>
        match forceRefresh, cached with
        | true, some c =>
          let discrepancy := calculateDiscrepancy c result
          if discrepancy.significant then
            match gen true (some discrepancy) with
            | .error e =>
              ⟨.error e, st.storage, [(false, none), (true, some discrepancy)]⟩
            | .ok r2 =>
              ⟨.ok r2, setCachedAnalysis st.storage symbol year r2,
                [(false, none), (true, some discrepancy)]⟩
          else
            ⟨.ok result, setCachedAnalysis st.storage symbol year result,
              [(false, none)]⟩
        | _, _ =>
          ⟨.ok result, setCachedAnalysis st.storage symbol year result,
            [(false, none)]⟩

/-! Branch equations for `runAnalysis`, one per control path. -/

theorem runAnalysis_pre_hit (st : CacheState) (gen) (symbol : String)
    (year : Int) (a : DuPontAnalysis)
    (hpre : st.precomputed (cacheKey symbol year) = some a) :
    runAnalysis st gen false symbol year = ⟨.ok a, st.storage, []⟩ := by
  unfold runAnalysis
  rw [hpre]

theorem runAnalysis_storage_hit (st : CacheState) (gen) (symbol : String)
    (year : Int) (c : DuPontAnalysis)
    (hpre : st.precomputed (cacheKey symbol year) = none)
    (hc : getCachedAnalysis st.storage symbol year = some c) :
    runAnalysis st gen false symbol year = ⟨.ok c, st.storage, []⟩ := by
  unfold runAnalysis
  rw [hpre]
  simp only []
  rw [hc]

theorem runAnalysis_gen_plain (st : CacheState) (gen) (fr : Bool)
    (symbol : String) (year : Int)
    (hpre : fr = false → st.precomputed (cacheKey symbol year) = none)
    (hc : getCachedAnalysis st.storage symbol year = none) :
    runAnalysis st gen fr symbol year =
      match gen false none with
      | .error e => ⟨.error e, st.storage, [(false, none)]⟩
      | .ok result =>
        ⟨.ok result, setCachedAnalysis st.storage symbol year result,
          [(false, none)]⟩ := by
  cases fr with
  | false =>
    unfold runAnalysis
    rw [hpre rfl]
    simp only []
    rw [hc]
  | true =>
    unfold runAnalysis
    simp only []
    rw [hc]

theorem runAnalysis_forced_gen_fails (st : CacheState) (gen)
    (symbol : String) (year : Int) (e : JsError)
    (hg : gen false none = .error e) :
    runAnalysis st gen true symbol year =
      ⟨.error e, st.storage, [(false, none)]⟩ := by
  unfold runAnalysis
  simp only []
  rw [hg]

theorem runAnalysis_forced_not_significant (st : CacheState) (gen)
    (symbol : String) (year : Int) (c r : DuPontAnalysis)
    (hc : getCachedAnalysis st.storage symbol year = some c)
    (hg : gen false none = .ok r)
    (hsig : (calculateDiscrepancy c r).significant = false) :
    runAnalysis st gen true symbol year =
      ⟨.ok r, setCachedAnalysis st.storage symbol year r, [(false, none)]⟩ := by
  unfold runAnalysis
  simp only []
  rw [hc, hg]
  simp only [hsig]
  rfl

theorem runAnalysis_forced_escalates (st : CacheState) (gen)
    (symbol : String) (year : Int) (c r : DuPontAnalysis)
    (hc : getCachedAnalysis st.storage symbol year = some c)
    (hg : gen false none = .ok r)
    (hsig : (calculateDiscrepancy c r).significant = true) :
    runAnalysis st gen true symbol year =
      match gen true (some (calculateDiscrepancy c r)) with
      | .error e =>
        ⟨.error e, st.storage,
          [(false, none), (true, some (calculateDiscrepancy c r))]⟩
      | .ok r2 =>
        ⟨.ok r2, setCachedAnalysis st.storage symbol year r2,
          [(false, none), (true, some (calculateDiscrepancy c r))]⟩ := by
  unfold runAnalysis
  simp only []
  rw [hc, hg]
  simp only [hsig]
  cases gen true (some (calculateDiscrepancy c r)) <;> rfl

/-! ### Export Collector (src/App.tsx, lines 244-305)

JavaScript core of `downloadReport` (status messages, pacing sleeps and
the blob download are presentation):

  `const masterExport = {}; let foundCount = 0;`
  `for (const company of FTSE100_CONSTITUENTS) {`
  `  const cacheKey = company.symbol + "_" + anchorYear;`
  `  let data = precomputedCache[cacheKey];`
  `  if (!data) {`
  `    const storageCached = getCachedAnalysis(company.symbol, anchorYear);`
  `    if (storageCached) data = storageCached;`
  `  }`
  `  if (data) { masterExport[cacheKey] = data; foundCount++; }`
  `}`
  `if (foundCount === 0) { alert(...); return; }`
  `...produce artifact from masterExport...`

The JavaScript record `masterExport` is modelled as an insertion-ordered
association list with key-overwriting assignment (`recordSet`); the
produced artifact is `some` association list, and the "nothing to
export" outcome is `none`.  The function reads the two tiers and returns
only the artifact: it performs no generation call and no cache write. -/

/-- JavaScript `record[k] = v` on an insertion-ordered association list:
overwrite in place when the key exists, append otherwise. -/
def recordSet (m : List (String × DuPontAnalysis)) (k : String)
    (v : DuPontAnalysis) : List (String × DuPontAnalysis) :=
  if m.any (fun p => p.1 == k) then
    m.map (fun p => if p.1 == k then (k, v) else p)
  else
    m ++ [(k, v)]

/-- The export key of one company: `company.symbol + "_" + anchorYear`. -/
def exportKey (year : Int) (c : Company) : String :=
  c.symbol ++ "_" ++ toString year

/-- The per-company lookup of `downloadReport`: the precomputed tier
first, the persisted tier only when the first misses. -/
def exportLookup (pre storage : String → Option DuPontAnalysis)
    (year : Int) (c : Company) : Option DuPontAnalysis :=
  match pre (exportKey year c) with
  | some d => some d
  | none => getCachedAnalysis storage c.symbol year

/-- One iteration of the `downloadReport` loop: the accumulator is
(`masterExport`, `foundCount`). -/
def exportStep (pre storage : String → Option DuPontAnalysis) (year : Int)
    (acc : List (String × DuPontAnalysis) × Nat) (c : Company) :
    List (String × DuPontAnalysis) × Nat :=
  match exportLookup pre storage year c with
  | some d => (recordSet acc.1 (exportKey year c) d, acc.2 + 1)
  | none => acc

/-- The Export Collector: `none` is the "nothing to export" outcome. -/
def downloadReport (univ : List Company) (year : Int)
    (pre storage : String → Option DuPontAnalysis) :
    Option (List (String × DuPontAnalysis)) :=
  let r := univ.foldl (exportStep pre storage year) ([], 0)
  if r.2 = 0 then none else some r.1

theorem recordSet_of_not_mem (m : List (String × DuPontAnalysis))
    (k : String) (v : DuPontAnalysis) (h : k ∉ m.map Prod.fst) :
    recordSet m k v = m ++ [(k, v)] := by
  unfold recordSet
  rw [if_neg]
  simp only [List.any_eq_true, beq_iff_eq, not_exists, not_and]
  intro p hp hpk
  exact h (by simpa [hpk] using List.mem_map_of_mem Prod.fst hp)

theorem append_right_cancel_str (s t u : String) (h : s ++ u = t ++ u) :
    s = t := by
  have hd : (s ++ u).data = (t ++ u).data := by rw [h]
  simp only [String.data_append] at hd
  exact String.ext (List.append_cancel_right hd)

theorem exportKey_nodup (univ : List Company) (year : Int)
    (h : (univ.map Company.symbol).Nodup) :
    (univ.map (exportKey year)).Nodup := by
  have : univ.map (exportKey year) =
      (univ.map Company.symbol).map
        (fun s => s ++ "_" ++ toString year) := by
    rw [List.map_map]; rfl
  rw [this]
  refine h.map ?_
  intro s t hst
  exact append_right_cancel_str s t "_"
    (append_right_cancel_str (s ++ "_") (t ++ "_") (toString year) hst)

/-- The invariant of the `downloadReport` loop: with pairwise-distinct
keys and an accumulator disjoint from them, the fold appends exactly one
entry per company whose lookup hits, increments `foundCount` once per
hit, preserves existing entries, and records each hit under its key. -/
theorem export_fold (pre storage : String → Option DuPontAnalysis)
    (year : Int) :
    ∀ (univ : List Company) (m0 : List (String × DuPontAnalysis))
      (n0 : Nat),
      (univ.map (exportKey year)).Nodup →
      (∀ c ∈ univ, exportKey year c ∉ m0.map Prod.fst) →
      (univ.foldl (exportStep pre storage year) (m0, n0)).1.map Prod.fst
          = m0.map Prod.fst ++
            ((univ.filter fun c =>
              (exportLookup pre storage year c).isSome).map (exportKey year)) ∧
      (univ.foldl (exportStep pre storage year) (m0, n0)).2
          = n0 + (univ.filter fun c =>
              (exportLookup pre storage year c).isSome).length ∧
      (∀ p ∈ m0, p ∈ (univ.foldl (exportStep pre storage year) (m0, n0)).1) ∧
      (∀ c ∈ univ, ∀ d, exportLookup pre storage year c = some d →
        (exportKey year c, d) ∈
          (univ.foldl (exportStep pre storage year) (m0, n0)).1) := by
  intro univ
  induction univ with
  | nil => intro m0 n0 _ _; simp
  | cons c rest ih =>
    intro m0 n0 hnd hdisj
    have hnd1 : exportKey year c ∉ rest.map (exportKey year) :=
      (List.nodup_cons.mp (by simpa using hnd)).1
    have hnd2 : (rest.map (exportKey year)).Nodup :=
      (List.nodup_cons.mp (by simpa using hnd)).2
    cases hl : exportLookup pre storage year c with
    | some d =>
      have hstep : exportStep pre storage year (m0, n0) c =
          (m0 ++ [(exportKey year c, d)], n0 + 1) := by
        unfold exportStep
        rw [hl]
        show (recordSet m0 (exportKey year c) d, n0 + 1) = _
        rw [recordSet_of_not_mem _ _ _ (hdisj c (List.mem_cons_self c rest))]
      have hdisj2 : ∀ c2 ∈ rest,
          exportKey year c2 ∉ (m0 ++ [(exportKey year c, d)]).map Prod.fst := by
        intro c2 hc2
        simp only [List.map_append, List.mem_append, List.map_cons,
          List.map_nil, List.mem_singleton]
        rintro (hin | heq)
        · exact hdisj c2 (List.mem_cons_of_mem c hc2) hin
        · exact hnd1 (heq ▸ List.mem_map_of_mem (exportKey year) hc2)
      obtain ⟨ihkeys, ihcount, ihpres, ihmem⟩ :=
        ih (m0 ++ [(exportKey year c, d)]) (n0 + 1) hnd2 hdisj2
      have hfold : (c :: rest).foldl (exportStep pre storage year) (m0, n0)
          = rest.foldl (exportStep pre storage year)
              (m0 ++ [(exportKey year c, d)], n0 + 1) := by
        rw [List.foldl_cons, hstep]
      refine ⟨?_, ?_, ?_, ?_⟩
      · rw [hfold, ihkeys]
        simp [hl, List.filter_cons]
      · rw [hfold, ihcount]
        simp only [List.filter_cons, hl, Option.isSome_some, if_pos]
        simp only [List.length_cons]
        omega
      · intro p hp
        rw [hfold]
        exact ihpres p (List.mem_append_left _ hp)
      · intro c2 hc2 d2 hd2
        rw [hfold]
        rcases List.mem_cons.mp hc2 with rfl | hc2r
        · have : d2 = d := by rw [hl] at hd2; exact (Option.some_inj.mp hd2).symm
          subst this
          exact ihpres (exportKey year c2, d2)
            (List.mem_append_right _ (List.mem_singleton.mpr rfl))
        · exact ihmem c2 hc2r d2 hd2
    | none =>
      have hstep : exportStep pre storage year (m0, n0) c = (m0, n0) := by
        unfold exportStep
        rw [hl]
      have hfold : (c :: rest).foldl (exportStep pre storage year) (m0, n0)
          = rest.foldl (exportStep pre storage year) (m0, n0) := by
        rw [List.foldl_cons, hstep]
      obtain ⟨ihkeys, ihcount, ihpres, ihmem⟩ :=
        ih m0 n0 hnd2 (fun c2 hc2 => hdisj c2 (List.mem_cons_of_mem c hc2))
      refine ⟨?_, ?_, ?_, ?_⟩
      · rw [hfold, ihkeys]
        simp [hl, List.filter_cons]
      · rw [hfold, ihcount]
        simp [hl, List.filter_cons]
      · intro p hp
        rw [hfold]
        exact ihpres p hp
      · intro c2 hc2 d2 hd2
        rw [hfold]
        rcases List.mem_cons.mp hc2 with rfl | hc2r
        · rw [hl] at hd2; cases hd2
        · exact ihmem c2 hc2r d2 hd2

/-! ### Concrete fixtures used by the claim witnesses -/

/-- The two-year series of spec section 8.1: assets [100, 80], equity
[50, 40] (most-recent first), netProfit 10 and revenue 50 for the anchor
year. -/
def spec81 : List RawYearData :=
  [⟨2023, 50, 10, 100, 50⟩, ⟨2022, 40, 8, 80, 40⟩]

/-- A one-year analysis whose anchor record carries the given ROE and
net profit (the only fields the Discrepancy Detector reads). -/
def mkAnalysis (roe profit : ℚ) : DuPontAnalysis :=
  ⟨[{ year := 2023, revenue := 50, netProfit := profit, totalAssets := 100,
      totalEquity := 50, roe := roe, roa := 0, margin := 0,
      turnover := 0, leverage := 2 }]⟩

/-- A wrapped operation that throws a rate-limit error (status 429) on
every invocation, with the invocation index in the message. -/
def alwaysRL : Nat → Except JsError Unit :=
  fun j => .error ⟨some 429, "attempt " ++ toString j⟩

/-- A wrapped operation that throws a rate-limit error twice and then
succeeds. -/
def flaky2 : Nat → Except JsError Nat :=
  fun j => if j < 2 then .error ⟨some 429, "RESOURCE_EXHAUSTED"⟩ else .ok 42

def oldA : DuPontAnalysis := mkAnalysis 10 100

def freshA : DuPontAnalysis := mkAnalysis 20 100

def deepA : DuPontAnalysis := mkAnalysis 15 100

def preA : DuPontAnalysis := mkAnalysis 30 100

/-- A cache state holding entries for (AAA, 2023) in both tiers. -/
def stPre : CacheState :=
  ⟨fun k => if k = cacheKey "AAA" 2023 then some preA else none,
   fun k => if k = storageKey "AAA" 2023 then some oldA else none⟩

/-- A cache state holding only a persisted entry for (AAA, 2023). -/
def stStor : CacheState :=
  ⟨fun _ => none,
   fun k => if k = storageKey "AAA" 2023 then some oldA else none⟩

/-- An empty cache state. -/
def stEmpty : CacheState := ⟨fun _ => none, fun _ => none⟩

/-- A generation oracle that succeeds, answering `freshA` to standard
calls and `deepA` to deep-dive calls. -/
def genOK : Bool → Option DiscrepancyReport → Except JsError DuPontAnalysis :=
  fun dd _ => if dd then .ok deepA else .ok freshA

def errQuota : JsError := ⟨some 429, "Quota exceeded"⟩

/-- A generation oracle that always fails with a quota error. -/
def genFail : Bool → Option DiscrepancyReport → Except JsError DuPontAnalysis :=
  fun _ _ => .error errQuota

/-- A generation oracle whose standard call succeeds with `freshA` and
whose deep-dive call fails with a quota error. -/
def genDeepFail : Bool → Option DiscrepancyReport → Except JsError DuPontAnalysis :=
  fun dd _ => if dd then .error errQuota else .ok freshA

/-- A two-company universe with distinct symbols. -/
def univ2 : List Company :=
  [⟨"AAA", "Alpha", "Technology", "alpha.example"⟩,
   ⟨"BBB", "Beta", "Energy", "beta.example"⟩]

/-- A precomputed tier holding only the AAA entry of `univ2`. -/
def preW : String → Option DuPontAnalysis :=
  fun k => if k = "AAA_2023" then some preA else none

/-- An empty persisted tier. -/
def storW : String → Option DuPontAnalysis := fun _ => none

/-! ### The claims -/

/-- C1: metric derivation is correct.  For every most-recent-first raw
series, the derived record at position i keeps the raw fields and has
margin = netProfit / revenue; when a prior-year record exists at i+1 the
turnover, roa, leverage and roe ratios are computed from the two-point
averages of assets and equity, and when position i is the last element
they are computed from the record's own raw assets and equity; on the
section-8.1 two-year series the anchor year derives turnover = 50/90,
roa = 10/90, leverage = 2, roe = 10/45, margin = 0.2. -/
theorem metric_derivation_correct (arr : List RawYearData) (i : Nat)
    (h : i < arr.length) :
    (computeTimeSeries arr).length = arr.length ∧
    (∀ h2 : i < (computeTimeSeries arr).length,
      ((computeTimeSeries arr).get ⟨i, h2⟩).toRawYearData = arr.get ⟨i, h⟩ ∧
      ((computeTimeSeries arr).get ⟨i, h2⟩).margin =
        (arr.get ⟨i, h⟩).netProfit / (arr.get ⟨i, h⟩).revenue ∧
      (∀ hs : i + 1 < arr.length,
        ((computeTimeSeries arr).get ⟨i, h2⟩).turnover =
          (arr.get ⟨i, h⟩).revenue /
            (((arr.get ⟨i, h⟩).totalAssets +
              (arr.get ⟨i + 1, hs⟩).totalAssets) / 2) ∧
        ((computeTimeSeries arr).get ⟨i, h2⟩).roa =
          (arr.get ⟨i, h⟩).netProfit /
            (((arr.get ⟨i, h⟩).totalAssets +
              (arr.get ⟨i + 1, hs⟩).totalAssets) / 2) ∧
        ((computeTimeSeries arr).get ⟨i, h2⟩).leverage =
          (((arr.get ⟨i, h⟩).totalAssets +
            (arr.get ⟨i + 1, hs⟩).totalAssets) / 2) /
            (((arr.get ⟨i, h⟩).totalEquity +
              (arr.get ⟨i + 1, hs⟩).totalEquity) / 2) ∧
        ((computeTimeSeries arr).get ⟨i, h2⟩).roe =
          (arr.get ⟨i, h⟩).netProfit /
            (((arr.get ⟨i, h⟩).totalEquity +
              (arr.get ⟨i + 1, hs⟩).totalEquity) / 2)) ∧
      (i + 1 = arr.length →
        ((computeTimeSeries arr).get ⟨i, h2⟩).turnover =
          (arr.get ⟨i, h⟩).revenue / (arr.get ⟨i, h⟩).totalAssets ∧
        ((computeTimeSeries arr).get ⟨i, h2⟩).roa =
          (arr.get ⟨i, h⟩).netProfit / (arr.get ⟨i, h⟩).totalAssets ∧
        ((computeTimeSeries arr).get ⟨i, h2⟩).leverage =
          (arr.get ⟨i, h⟩).totalAssets / (arr.get ⟨i, h⟩).totalEquity ∧
        ((computeTimeSeries arr).get ⟨i, h2⟩).roe =
          (arr.get ⟨i, h⟩).netProfit / (arr.get ⟨i, h⟩).totalEquity)) ∧
    ((computeTimeSeries spec81).headI.turnover = 50 / 90 ∧
     (computeTimeSeries spec81).headI.roa = 10 / 90 ∧
     (computeTimeSeries spec81).headI.leverage = 2 ∧
     (computeTimeSeries spec81).headI.roe = 10 / 45 ∧
     (computeTimeSeries spec81).headI.margin = 0.2) := by
  refine ⟨computeTimeSeries_length arr, fun h2 => ?_,
    by norm_num [spec81, computeTimeSeries, deriveYear, List.headI]⟩
  rw [computeTimeSeries_get arr i h h2]
  refine ⟨?_, ?_, fun hs => ?_, fun hlast => ?_⟩
  · cases arr[i + 1]? <;> rfl
  · cases arr[i + 1]? <;> rfl
  · have hsome : arr[i + 1]? = some (arr.get ⟨i + 1, hs⟩) := by
      rw [List.getElem?_eq_getElem hs]
      simp [List.get_eq_getElem]
    rw [hsome]
    exact ⟨rfl, rfl, rfl, rfl⟩
  · have hnone : arr[i + 1]? = none := List.getElem?_eq_none (by omega)
    rw [hnone]
    exact ⟨rfl, rfl, rfl, rfl⟩

/-- Witness for C1 at the section-8.1 series and the anchor position. -/
theorem metric_derivation_correct_witness :
    0 < spec81.length ∧
    ((computeTimeSeries spec81).length = spec81.length ∧
      (∀ h2 : 0 < (computeTimeSeries spec81).length,
        ((computeTimeSeries spec81).get ⟨0, h2⟩).toRawYearData =
          spec81.get ⟨0, by decide⟩ ∧
        ((computeTimeSeries spec81).get ⟨0, h2⟩).margin =
          (spec81.get ⟨0, by decide⟩).netProfit /
            (spec81.get ⟨0, by decide⟩).revenue ∧
        (∀ hs : 0 + 1 < spec81.length,
          ((computeTimeSeries spec81).get ⟨0, h2⟩).turnover =
            (spec81.get ⟨0, by decide⟩).revenue /
              (((spec81.get ⟨0, by decide⟩).totalAssets +
                (spec81.get ⟨0 + 1, hs⟩).totalAssets) / 2) ∧
          ((computeTimeSeries spec81).get ⟨0, h2⟩).roa =
            (spec81.get ⟨0, by decide⟩).netProfit /
              (((spec81.get ⟨0, by decide⟩).totalAssets +
                (spec81.get ⟨0 + 1, hs⟩).totalAssets) / 2) ∧
          ((computeTimeSeries spec81).get ⟨0, h2⟩).leverage =
            (((spec81.get ⟨0, by decide⟩).totalAssets +
              (spec81.get ⟨0 + 1, hs⟩).totalAssets) / 2) /
              (((spec81.get ⟨0, by decide⟩).totalEquity +
                (spec81.get ⟨0 + 1, hs⟩).totalEquity) / 2) ∧
          ((computeTimeSeries spec81).get ⟨0, h2⟩).roe =
            (spec81.get ⟨0, by decide⟩).netProfit /
              (((spec81.get ⟨0, by decide⟩).totalEquity +
                (spec81.get ⟨0 + 1, hs⟩).totalEquity) / 2)) ∧
        (0 + 1 = spec81.length →
          ((computeTimeSeries spec81).get ⟨0, h2⟩).turnover =
            (spec81.get ⟨0, by decide⟩).revenue /
              (spec81.get ⟨0, by decide⟩).totalAssets ∧
          ((computeTimeSeries spec81).get ⟨0, h2⟩).roa =
            (spec81.get ⟨0, by decide⟩).netProfit /
              (spec81.get ⟨0, by decide⟩).totalAssets ∧
          ((computeTimeSeries spec81).get ⟨0, h2⟩).leverage =
            (spec81.get ⟨0, by decide⟩).totalAssets /
              (spec81.get ⟨0, by decide⟩).totalEquity ∧
          ((computeTimeSeries spec81).get ⟨0, h2⟩).roe =
            (spec81.get ⟨0, by decide⟩).netProfit /
              (spec81.get ⟨0, by decide⟩).totalEquity)) ∧
      ((computeTimeSeries spec81).headI.turnover = 50 / 90 ∧
       (computeTimeSeries spec81).headI.roa = 10 / 90 ∧
       (computeTimeSeries spec81).headI.leverage = 2 ∧
       (computeTimeSeries spec81).headI.roe = 10 / 45 ∧
       (computeTimeSeries spec81).headI.margin = 0.2)) :=
  ⟨by decide, metric_derivation_correct spec81 0 (by decide)⟩

/-- C2: cache tier precedence.  For every non-forced resolution request
whose key has an entry in the in-memory precomputed set, that entry is
returned, regardless of the persisted tier and of the generation oracle
(so neither affects the outcome); the persisted store is untouched and
no generation call occurs. -/
theorem cache_tier_precedence (st : CacheState)
    (gen : Bool → Option DiscrepancyReport → Except JsError DuPontAnalysis)
    (symbol : String) (year : Int) (a : DuPontAnalysis)
    (hpre : st.precomputed (cacheKey symbol year) = some a) :
    (runAnalysis st gen false symbol year).outcome = .ok a ∧
    (runAnalysis st gen false symbol year).storage = st.storage ∧
    (runAnalysis st gen false symbol year).genCalls = [] := by
  rw [runAnalysis_pre_hit st gen symbol year a hpre]
  exact ⟨rfl, rfl, rfl⟩

/-- Witness for C2 on a state holding entries in both tiers. -/
theorem cache_tier_precedence_witness :
    stPre.precomputed (cacheKey "AAA" 2023) = some preA ∧
    ((runAnalysis stPre genOK false "AAA" 2023).outcome = .ok preA ∧
     (runAnalysis stPre genOK false "AAA" 2023).storage = stPre.storage ∧
     (runAnalysis stPre genOK false "AAA" 2023).genCalls = []) :=
  ⟨by decide, cache_tier_precedence stPre genOK "AAA" 2023 preA (by decide)⟩

/-- C3: escalation trigger.  A deep-dive generation call occurs in a
resolution request exactly when the request was forced, a prior persisted
entry existed for the key, the standard generation call succeeded, and
the Discrepancy Detector on (prior entry, fresh result) reports
significant; when it occurs the deep-dive call carries the discrepancy
report as its note, and a successful deep-dive result is what is
returned and persisted.  In particular no escalation occurs on a
non-forced request or when no prior persisted entry exists. -/
theorem escalation_trigger (st : CacheState)
    (gen : Bool → Option DiscrepancyReport → Except JsError DuPontAnalysis)
    (fr : Bool) (symbol : String) (year : Int) :
    (((runAnalysis st gen fr symbol year).genCalls.any fun call => call.1) = true ↔
      fr = true ∧ ∃ c r, getCachedAnalysis st.storage symbol year = some c ∧
        gen false none = .ok r ∧ (calculateDiscrepancy c r).significant = true) ∧
    (∀ c r, fr = true → getCachedAnalysis st.storage symbol year = some c →
      gen false none = .ok r → (calculateDiscrepancy c r).significant = true →
      (runAnalysis st gen fr symbol year).genCalls =
          [(false, none), (true, some (calculateDiscrepancy c r))] ∧
      (∀ r2, gen true (some (calculateDiscrepancy c r)) = .ok r2 →
        (runAnalysis st gen fr symbol year).outcome = .ok r2 ∧
        (runAnalysis st gen fr symbol year).storage (storageKey symbol year)
          = some r2)) := by
  cases fr with
  | false =>
    constructor
    · constructor
      · intro hany
        exfalso
        cases hpre : st.precomputed (cacheKey symbol year) with
        | some a =>
          rw [runAnalysis_pre_hit st gen symbol year a hpre] at hany
          simp at hany
        | none =>
          cases hc : getCachedAnalysis st.storage symbol year with
          | some c =>
            rw [runAnalysis_storage_hit st gen symbol year c hpre hc] at hany
            simp at hany
          | none =>
            rw [runAnalysis_gen_plain st gen false symbol year
              (fun _ => hpre) hc] at hany
            cases hg : gen false none with
            | error e => rw [hg] at hany; simp at hany
            | ok r => rw [hg] at hany; simp at hany
      · rintro ⟨hfr, -⟩; cases hfr
    · intro c r hfr; cases hfr
  | true =>
    cases hc : getCachedAnalysis st.storage symbol year with
    | none =>
      constructor
      · constructor
        · intro hany
          exfalso
          rw [runAnalysis_gen_plain st gen true symbol year
            (fun hf => by cases hf) hc] at hany
          cases hg : gen false none with
          | error e => rw [hg] at hany; simp at hany
          | ok r => rw [hg] at hany; simp at hany
        · rintro ⟨-, c, r, hcc, -⟩
          simp at hcc
      · intro c r _ hcc
        simp at hcc
    | some c =>
      cases hg : gen false none with
      | error e =>
        constructor
        · constructor
          · intro hany
            exfalso
            rw [runAnalysis_forced_gen_fails st gen symbol year e hg] at hany
            simp at hany
          · rintro ⟨-, c2, r, hcc, hgg, -⟩
            simp at hgg
        · intro c2 r _ hcc hgg
          simp at hgg
      | ok r =>
        cases hsig : (calculateDiscrepancy c r).significant with
        | false =>
          constructor
          · constructor
            · intro hany
              exfalso
              rw [runAnalysis_forced_not_significant st gen symbol year c r
                hc hg hsig] at hany
              simp at hany
            · rintro ⟨-, c2, r2, hcc, hgg, hss⟩
              obtain rfl : c = c2 := Option.some.inj hcc
              obtain rfl : r = r2 := Except.ok.inj hgg
              rw [hsig] at hss; cases hss
          · intro c2 r2 _ hcc hgg hss
            obtain rfl : c = c2 := Option.some.inj hcc
            obtain rfl : r = r2 := Except.ok.inj hgg
            rw [hsig] at hss; cases hss
        | true =>
          have hesc := runAnalysis_forced_escalates st gen symbol year c r
            hc hg hsig
          constructor
          · constructor
            · intro _
              exact ⟨rfl, c, r, rfl, rfl, hsig⟩
            · intro _
              rw [hesc]
              cases gen true (some (calculateDiscrepancy c r)) <;> simp
          · intro c2 r2 _ hcc hgg _
            obtain rfl : c = c2 := Option.some.inj hcc
            obtain rfl : r = r2 := Except.ok.inj hgg
            constructor
            · rw [hesc]
              cases gen true (some (calculateDiscrepancy c r)) <;> rfl
            · intro r3 hg2
              rw [hesc, hg2]
              exact ⟨rfl, by simp [setCachedAnalysis]⟩

/-- Witness for C3: a forced refresh over a persisted entry whose fresh
result deviates significantly escalates to a deep dive whose result is
returned and persisted. -/
theorem escalation_trigger_witness :
    getCachedAnalysis stStor.storage "AAA" 2023 = some oldA ∧
    genOK false none = .ok freshA ∧
    (calculateDiscrepancy oldA freshA).significant = true ∧
    (runAnalysis stStor genOK true "AAA" 2023).genCalls =
      [(false, none), (true, some (calculateDiscrepancy oldA freshA))] ∧
    (runAnalysis stStor genOK true "AAA" 2023).outcome = .ok deepA ∧
    (runAnalysis stStor genOK true "AAA" 2023).storage (storageKey "AAA" 2023)
      = some deepA := by
  have hsig : (calculateDiscrepancy oldA freshA).significant = true := by
    norm_num [calculateDiscrepancy, oldA, freshA, mkAnalysis, List.headI]
  have h := (escalation_trigger stStor genOK true "AAA" 2023).2 oldA freshA
    rfl (by decide) rfl hsig
  exact ⟨by decide, rfl, hsig, h.1, (h.2 deepA rfl).1, (h.2 deepA rfl).2⟩

/-- C4 (counterexample): on an operation that throws a rate-limit error
on every invocation, `fetchWithRetry` with maxRetries = 3 makes 4 calls
and then rethrows the operation's own 4th error — it does not raise the
distinct terminal "Max retries exceeded" failure, whose throw site is
never reached. -/
theorem retry_terminal_claim_cex :
    (fetchWithRetry alwaysRL 3 3000).calls = 4 ∧
    (fetchWithRetry alwaysRL 3 3000).result =
      .error ⟨some 429, "attempt " ++ toString 3⟩ ∧
    (fetchWithRetry alwaysRL 3 3000).result ≠ .error maxRetriesExceeded ∧
    (fetchWithRetry alwaysRL 3 3000).exhausted = false :=
  ⟨by decide, by decide, by decide, by decide⟩

/-- C4 (amended): for every wrapped operation that fails with a
rate-limit signal on every invocation, the invoker performs
maxRetries + 1 total attempts, waiting initialDelay * 2 ^ j before the
j-th retry, and then rethrows the operation's own final rate-limit
error; the trailing "max retries exceeded" failure is never raised. -/
theorem retry_exhaustion_rethrows_last {α : Type}
    (fn : Nat → Except JsError α) (mr : Nat) (d : ℚ)
    (hfail : ∀ j, j ≤ mr → isRateLimitFailure (fn j) = true) :
    ∃ e, fn mr = .error e ∧
      fetchWithRetry fn mr d =
        ⟨.error e, mr + 1, (List.range mr).map fun j => d * 2 ^ j, false⟩ := by
  have hmr : isRateLimitFailure (fn mr) = true := hfail mr le_rfl
  obtain ⟨e, hfn, hrl⟩ : ∃ e, fn mr = .error e ∧ isRateLimit e = true := by
    cases hfn : fn mr with
    | ok v => rw [hfn] at hmr; simp [isRateLimitFailure] at hmr
    | error e => rw [hfn] at hmr; exact ⟨e, rfl, hmr⟩
  refine ⟨e, hfn, ?_⟩
  have hadv : fetchWithRetry fn mr d =
      fetchLoop fn mr d (mr + 1 - (0 + mr)) (0 + mr)
        ([] ++ (List.range' 0 mr).map fun j => d * 2 ^ j) :=
    fetchLoop_advance fn mr d mr 0 [] (by omega)
      (fun j h1 h2 => hfail j (by omega))
  rw [hadv]
  have h0 : 0 + mr = mr := Nat.zero_add mr
  have h1 : mr + 1 - mr = 1 := by omega
  rw [h0, h1, List.nil_append, ← List.range_eq_range']
  rw [fetchLoop_succ, if_pos (le_refl mr)]
  simp only [hfn]
  rw [if_neg (fun hand => lt_irrefl mr hand.2)]

/-- Witness for the amended C4 at the always-failing operation. -/
theorem retry_exhaustion_rethrows_last_witness :
    (∀ j, j ≤ 3 → isRateLimitFailure (alwaysRL j) = true) ∧
    (∃ e, alwaysRL 3 = .error e ∧
      fetchWithRetry alwaysRL 3 3000 =
        ⟨.error e, 3 + 1, (List.range 3).map fun j => (3000 : ℚ) * 2 ^ j,
          false⟩) :=
  ⟨by decide, retry_exhaustion_rethrows_last alwaysRL 3 3000 (by decide)⟩

/-- C5: backoff schedule and eventual success.  If the first k
invocations throw rate-limit errors, the (k+1)-st succeeds, and k is
within the retry budget, the invoker returns the success value after
k + 1 calls, having waited initialDelay * 2 ^ j before the j-th retry,
for a total simulated delay of initialDelay * (2 ^ k - 1) — in
particular 3 * initialDelay when the operation fails exactly twice. -/
theorem backoff_schedule_success {α : Type} (fn : Nat → Except JsError α)
    (mr : Nat) (d : ℚ) (k : Nat) (v : α) (hk : k ≤ mr)
    (hfail : ∀ j, j < k → isRateLimitFailure (fn j) = true)
    (hok : fn k = .ok v) :
    fetchWithRetry fn mr d =
      ⟨.ok v, k + 1, (List.range k).map fun j => d * 2 ^ j, false⟩ ∧
    (((List.range k).map fun j => d * 2 ^ j).sum) = d * (2 ^ k - 1) := by
  refine ⟨?_, backoff_sum d k⟩
  have hadv : fetchWithRetry fn mr d =
      fetchLoop fn mr d (mr + 1 - (0 + k)) (0 + k)
        ([] ++ (List.range' 0 k).map fun j => d * 2 ^ j) :=
    fetchLoop_advance fn mr d k 0 [] (by omega)
      (fun j h1 h2 => hfail j (by omega))
  rw [hadv]
  have h0 : 0 + k = k := Nat.zero_add k
  have h1 : mr + 1 - k = (mr - k) + 1 := by omega
  rw [h0, h1, List.nil_append, ← List.range_eq_range']
  rw [fetchLoop_succ, if_pos hk]
  simp only [hok]

/-- Witness for C5: an operation failing with a rate-limit signal
exactly twice then succeeding, with maxRetries = 3 and
initialDelay = 3000, returns the success value after a total simulated
delay of 3 * 3000. -/
theorem backoff_schedule_success_witness :
    (2 ≤ 3 ∧ (∀ j, j < 2 → isRateLimitFailure (flaky2 j) = true) ∧
      flaky2 2 = .ok 42) ∧
    (fetchWithRetry flaky2 3 3000 =
      ⟨.ok 42, 2 + 1, (List.range 2).map fun j => (3000 : ℚ) * 2 ^ j,
        false⟩ ∧
     (((List.range 2).map fun j => (3000 : ℚ) * 2 ^ j).sum) =
       3000 * (2 ^ 2 - 1)) ∧
    (3000 : ℚ) * (2 ^ 2 - 1) = 3 * 3000 :=
  ⟨⟨by decide, by decide, by decide⟩,
   backoff_schedule_success flaky2 3 3000 2 42 (by decide) (by decide)
     (by decide),
   by norm_num⟩

/-- C9: retry failures preserve provenance.  Every `fetchWithRetry` run
ends at some invocation n within the budget: the outcome (returned value
or rethrown error) is exactly the outcome of the operation's n-th (and
final) invocation, after n + 1 calls, and the trailing "Max retries
exceeded" throw after the loop never fires.  In particular an
always-rate-limit-failing operation with maxRetries = 3 runs exactly 4
times and its own 4th error is what propagates. -/
theorem retry_provenance {α : Type} (fn : Nat → Except JsError α)
    (mr : Nat) (d : ℚ) :
    (∃ n, n ≤ mr ∧
      (fetchWithRetry fn mr d).result = fn n ∧
      (fetchWithRetry fn mr d).calls = n + 1 ∧
      (fetchWithRetry fn mr d).exhausted = false) ∧
    ((fetchWithRetry alwaysRL 3 3000).calls = 4 ∧
     (fetchWithRetry alwaysRL 3 3000).result = alwaysRL 3 ∧
     (fetchWithRetry alwaysRL 3 3000).result =
       .error ⟨some 429, "attempt " ++ toString 3⟩ ∧
     (fetchWithRetry alwaysRL 3 3000).exhausted = false) := by
  constructor
  · obtain ⟨n, h1, h2, h3, h4, h5⟩ :=
      fetchLoop_provenance fn mr d (mr + 1) 0 [] (by omega) (Nat.zero_le mr)
    exact ⟨n, h2, h3, h4, h5⟩
  · exact ⟨by decide, by decide, by decide, by decide⟩

/-- C6: discrepancy significance is a strict threshold.  The verdict is
significant exactly when the relative ROE delta or the relative
net-profit delta exceeds 0.01, each delta being the absolute shift
divided by the old anchor value (or by 1 when that value is zero); a
delta of exactly 0.01 (old ROE 0.10, new ROE 0.101, profits equal) is
not significant, while new ROE 0.1011 is. -/
theorem discrepancy_strict_threshold (oldD newD : DuPontAnalysis) :
    ((calculateDiscrepancy oldD newD).significant = true ↔
      (calculateDiscrepancy oldD newD).roeDiff > 0.01 ∨
      (calculateDiscrepancy oldD newD).profitDiff > 0.01) ∧
    (calculateDiscrepancy oldD newD).roeDiff =
      |newD.timeSeries.headI.roe - oldD.timeSeries.headI.roe| /
        (if oldD.timeSeries.headI.roe = 0 then 1
         else oldD.timeSeries.headI.roe) ∧
    (calculateDiscrepancy oldD newD).profitDiff =
      |newD.timeSeries.headI.netProfit - oldD.timeSeries.headI.netProfit| /
        (if oldD.timeSeries.headI.netProfit = 0 then 1
         else oldD.timeSeries.headI.netProfit) ∧
    (calculateDiscrepancy (mkAnalysis 0.1 100)
      (mkAnalysis 0.101 100)).significant = false ∧
    (calculateDiscrepancy (mkAnalysis 0.1 100)
      (mkAnalysis 0.1011 100)).significant = true := by
  refine ⟨?_, rfl, rfl, ?_, ?_⟩
  · simp [calculateDiscrepancy]
  · norm_num [calculateDiscrepancy, mkAnalysis, List.headI, abs_of_nonneg]
  · norm_num [calculateDiscrepancy, mkAnalysis, List.headI, abs_of_nonneg]

/-- C10: sign sensitivity of the discrepancy divisor.  The zero-fallback
divisor is the raw signed old value, so a strictly negative old anchor
ROE forces the ROE relative delta to be nonpositive and significance to
depend solely on the net-profit delta; symmetrically for a strictly
negative old anchor net profit. -/
theorem discrepancy_negative_divisor (oldD newD : DuPontAnalysis) :
    (oldD.timeSeries.headI.roe < 0 →
      (calculateDiscrepancy oldD newD).roeDiff ≤ 0 ∧
      ((calculateDiscrepancy oldD newD).significant = true ↔
        (calculateDiscrepancy oldD newD).profitDiff > 0.01)) ∧
    (oldD.timeSeries.headI.netProfit < 0 →
      (calculateDiscrepancy oldD newD).profitDiff ≤ 0 ∧
      ((calculateDiscrepancy oldD newD).significant = true ↔
        (calculateDiscrepancy oldD newD).roeDiff > 0.01)) := by
  have hsig : (calculateDiscrepancy oldD newD).significant =
      decide ((calculateDiscrepancy oldD newD).roeDiff > 0.01 ∨
        (calculateDiscrepancy oldD newD).profitDiff > 0.01) := rfl
  constructor
  · intro hneg
    have hdiv : (calculateDiscrepancy oldD newD).roeDiff =
        |newD.timeSeries.headI.roe - oldD.timeSeries.headI.roe| /
          oldD.timeSeries.headI.roe := by
      simp [calculateDiscrepancy, if_neg (ne_of_lt hneg)]
    have hle : (calculateDiscrepancy oldD newD).roeDiff ≤ 0 := by
      rw [hdiv]
      exact div_nonpos_of_nonneg_of_nonpos (abs_nonneg _) hneg.le
    refine ⟨hle, ?_⟩
    rw [hsig, decide_eq_true_eq]
    exact or_iff_right (by intro hgt; linarith)
  · intro hneg
    have hdiv : (calculateDiscrepancy oldD newD).profitDiff =
        |newD.timeSeries.headI.netProfit - oldD.timeSeries.headI.netProfit| /
          oldD.timeSeries.headI.netProfit := by
      simp [calculateDiscrepancy, if_neg (ne_of_lt hneg)]
    have hle : (calculateDiscrepancy oldD newD).profitDiff ≤ 0 := by
      rw [hdiv]
      exact div_nonpos_of_nonneg_of_nonpos (abs_nonneg _) hneg.le
    refine ⟨hle, ?_⟩
    rw [hsig, decide_eq_true_eq]
    constructor
    · rintro (h | h)
      · exact h
      · linarith
    · exact Or.inl

/-- Witness for C10 at a negative old anchor ROE. -/
theorem discrepancy_negative_divisor_witness :
    (mkAnalysis (-10) 100).timeSeries.headI.roe < 0 ∧
    ((calculateDiscrepancy (mkAnalysis (-10) 100)
        (mkAnalysis 20 100)).roeDiff ≤ 0 ∧
     ((calculateDiscrepancy (mkAnalysis (-10) 100)
        (mkAnalysis 20 100)).significant = true ↔
       (calculateDiscrepancy (mkAnalysis (-10) 100)
        (mkAnalysis 20 100)).profitDiff > 0.01)) :=
  ⟨by norm_num [mkAnalysis, List.headI],
   (discrepancy_negative_divisor (mkAnalysis (-10) 100)
     (mkAnalysis 20 100)).1 (by norm_num [mkAnalysis, List.headI])⟩

/-- C7: atomicity on generation failure.  A failing generation call
propagates: whenever a request reaches the generation step (it is
forced, or both tiers miss) and the standard generation call fails, the
request returns exactly that error with the persisted store untouched;
likewise when an escalated deep-dive call fails.  Conversely, every
error outcome leaves the store exactly as it was and is precisely the
failure of one of the generation calls the request issued — no stale,
partial or default value is written or returned in place of the
error. -/
theorem generation_failure_atomic (st : CacheState)
    (gen : Bool → Option DiscrepancyReport → Except JsError DuPontAnalysis)
    (fr : Bool) (symbol : String) (year : Int) :
    (∀ e, (fr = true ∨ (st.precomputed (cacheKey symbol year) = none ∧
        getCachedAnalysis st.storage symbol year = none)) →
      gen false none = .error e →
      (runAnalysis st gen fr symbol year).outcome = .error e ∧
      (runAnalysis st gen fr symbol year).storage = st.storage ∧
      (runAnalysis st gen fr symbol year).genCalls = [(false, none)]) ∧
    (∀ c r e, fr = true →
      getCachedAnalysis st.storage symbol year = some c →
      gen false none = .ok r →
      (calculateDiscrepancy c r).significant = true →
      gen true (some (calculateDiscrepancy c r)) = .error e →
      (runAnalysis st gen fr symbol year).outcome = .error e ∧
      (runAnalysis st gen fr symbol year).storage = st.storage) ∧
    (∀ e, (runAnalysis st gen fr symbol year).outcome = .error e →
      (runAnalysis st gen fr symbol year).storage = st.storage ∧
      ∃ dd note, (dd, note) ∈ (runAnalysis st gen fr symbol year).genCalls ∧
        gen dd note = .error e) := by
  refine ⟨?_, ?_, ?_⟩
  · intro e hreach hgen
    rcases hreach with hfr | ⟨hpre, hcn⟩
    · subst hfr
      cases hc : getCachedAnalysis st.storage symbol year with
      | none =>
        rw [runAnalysis_gen_plain st gen true symbol year
          (fun hf => by cases hf) hc, hgen]
        exact ⟨rfl, rfl, rfl⟩
      | some c =>
        rw [runAnalysis_forced_gen_fails st gen symbol year e hgen]
        exact ⟨rfl, rfl, rfl⟩
    · rw [runAnalysis_gen_plain st gen fr symbol year (fun _ => hpre) hcn,
        hgen]
      exact ⟨rfl, rfl, rfl⟩
  · intro c r e hfr hc hg hsig hg2
    subst hfr
    rw [runAnalysis_forced_escalates st gen symbol year c r hc hg hsig, hg2]
    exact ⟨rfl, rfl⟩
  · intro e h
    cases fr with
      | false =>
        cases hpre : st.precomputed (cacheKey symbol year) with
        | some a =>
          rw [runAnalysis_pre_hit st gen symbol year a hpre] at h
          cases h
        | none =>
          cases hc : getCachedAnalysis st.storage symbol year with
          | some c =>
            rw [runAnalysis_storage_hit st gen symbol year c hpre hc] at h
            cases h
          | none =>
            rw [runAnalysis_gen_plain st gen false symbol year (fun _ => hpre) hc]
              at h ⊢
            cases hg : gen false none with
            | error e2 =>
              rw [hg] at h
              obtain rfl : e2 = e := by simpa using h
              exact ⟨rfl, false, none, by simp, hg⟩
            | ok r =>
              rw [hg] at h
              simp at h
      | true =>
        cases hc : getCachedAnalysis st.storage symbol year with
        | none =>
          rw [runAnalysis_gen_plain st gen true symbol year (fun hf => by cases hf)
            hc] at h ⊢
          cases hg : gen false none with
          | error e2 =>
            rw [hg] at h
            obtain rfl : e2 = e := by simpa using h
            exact ⟨rfl, false, none, by simp, hg⟩
          | ok r =>
            rw [hg] at h
            simp at h
        | some c =>
          cases hg : gen false none with
          | error e2 =>
            rw [runAnalysis_forced_gen_fails st gen symbol year e2 hg] at h ⊢
            obtain rfl : e2 = e := by simpa using h
            exact ⟨rfl, false, none, by simp, hg⟩
          | ok r =>
            cases hsig : (calculateDiscrepancy c r).significant with
            | false =>
              rw [runAnalysis_forced_not_significant st gen symbol year c r hc hg
                hsig] at h
              cases h
            | true =>
              rw [runAnalysis_forced_escalates st gen symbol year c r hc hg hsig]
                at h ⊢
              cases hg2 : gen true (some (calculateDiscrepancy c r)) with
              | error e2 =>
                rw [hg2] at h
                obtain rfl : e2 = e := by simpa using h
                exact ⟨rfl, true, some (calculateDiscrepancy c r), by simp, hg2⟩
              | ok r2 =>
                rw [hg2] at h
                simp at h

/-- Witness for C7: a failing standard call on an empty cache
propagates with nothing written, a failing deep-dive call after a
significant forced refresh likewise, and the error outcome is the
generation failure itself. -/
theorem generation_failure_atomic_witness :
    ((runAnalysis stEmpty genFail false "AAA" 2023).outcome = .error errQuota ∧
     (runAnalysis stEmpty genFail false "AAA" 2023).storage = stEmpty.storage ∧
     (runAnalysis stEmpty genFail false "AAA" 2023).genCalls = [(false, none)]) ∧
    ((runAnalysis stStor genDeepFail true "AAA" 2023).outcome = .error errQuota ∧
     (runAnalysis stStor genDeepFail true "AAA" 2023).storage = stStor.storage) ∧
    ((runAnalysis stEmpty genFail false "AAA" 2023).storage = stEmpty.storage ∧
     ∃ dd note,
       (dd, note) ∈ (runAnalysis stEmpty genFail false "AAA" 2023).genCalls ∧
       genFail dd note = .error errQuota) := by
  have hsig : (calculateDiscrepancy oldA freshA).significant = true := by
    norm_num [calculateDiscrepancy, oldA, freshA, mkAnalysis, List.headI]
  refine ⟨?_, ?_, ?_⟩
  · exact (generation_failure_atomic stEmpty genFail false "AAA" 2023).1
      errQuota (Or.inr ⟨rfl, rfl⟩) rfl
  · exact (generation_failure_atomic stStor genDeepFail true "AAA" 2023).2.1
      oldA freshA errQuota rfl (by decide) rfl hsig rfl
  · exact (generation_failure_atomic stEmpty genFail false "AAA" 2023).2.2
      errQuota (by decide)

/-- C8: export integrity.  Over a universe of companies with pairwise
distinct symbols, the export yields the "nothing to export" outcome when
no company has an entry in either tier, otherwise it yields an artifact
with exactly one key per company that has an entry in either tier
(preferring the precomputed tier); the collector reads the tiers only
and issues no generation call. -/
theorem export_integrity (univ : List Company) (year : Int)
    (pre storage : String → Option DuPontAnalysis)
    (hnd : (univ.map Company.symbol).Nodup) :
    ((univ.filter fun c => (exportLookup pre storage year c).isSome) = [] →
      downloadReport univ year pre storage = none) ∧
    (∀ m, downloadReport univ year pre storage = some m →
      m.length = (univ.filter fun c =>
        (exportLookup pre storage year c).isSome).length ∧
      (∀ c ∈ univ, ∀ d, pre (exportKey year c) = some d →
        (exportKey year c, d) ∈ m)) ∧
    ((univ.filter fun c => (exportLookup pre storage year c).isSome) ≠ [] →
      ∃ m, downloadReport univ year pre storage = some m) := by
  obtain ⟨hkeys, hcount, hpres, hmem⟩ :=
    export_fold pre storage year univ [] 0 (exportKey_nodup univ year hnd)
      (by simp)
  refine ⟨?_, ?_, ?_⟩
  · intro hfil
    unfold downloadReport
    rw [if_pos]
    rw [hcount, hfil]
    simp
  · intro m hm
    unfold downloadReport at hm
    by_cases hz : (univ.foldl (exportStep pre storage year) ([], 0)).2 = 0
    · rw [if_pos hz] at hm
      cases hm
    · rw [if_neg hz] at hm
      obtain rfl : (univ.foldl (exportStep pre storage year) ([], 0)).1 = m :=
        Option.some.inj hm
      constructor
      · have hlen := congrArg List.length hkeys
        simpa using hlen
      · intro c hcu d hd
        refine hmem c hcu d ?_
        unfold exportLookup
        rw [hd]
  · intro hfil
    unfold downloadReport
    rw [if_neg]
    · exact ⟨_, rfl⟩
    · rw [hcount]
      simpa using fun hlen => hfil (List.length_eq_zero.mp hlen)

/-- Witness for C8 on a two-company universe with one precomputed
entry. -/
theorem export_integrity_witness :
    (univ2.map Company.symbol).Nodup ∧
    (((univ2.filter fun c => (exportLookup preW storW 2023 c).isSome) = [] →
       downloadReport univ2 2023 preW storW = none) ∧
     (∀ m, downloadReport univ2 2023 preW storW = some m →
       m.length = (univ2.filter fun c =>
         (exportLookup preW storW 2023 c).isSome).length ∧
       (∀ c ∈ univ2, ∀ d, preW (exportKey 2023 c) = some d →
         (exportKey 2023 c, d) ∈ m)) ∧
     ((univ2.filter fun c => (exportLookup preW storW 2023 c).isSome) ≠ [] →
       ∃ m, downloadReport univ2 2023 preW storW = some m)) :=
  ⟨by decide, export_integrity univ2 2023 preW storW (by decide)⟩
